import Mathlib

/-!
Shallow embedding of the call-session orchestration core of the AI phone
receptionist repository (src/main.py, src/utils.py, src/database.py,
src/prompts.py).  Python strings are modelled as lists of Unicode code
points; the external collaborators (the OpenAI responder, the OpenAI
extractor, the orders table and the e-mail notifications) are modelled
as oracle parameters and an explicit row list.
-/

namespace AiAgent

/-- Python strings as lists of Unicode code points. -/
abbrev PyStr := List Nat

/-- Code points of a Lean string literal, used to write concrete Python
string constants from the source. -/
def ofStr (s : String) : PyStr := s.data.map Char.toNat

/-- Whitespace predicate of Python str.strip (space, tab, newline,
carriage return, vertical tab, form feed). -/
def isWS (c : Nat) : Bool := c = 32 || c = 9 || c = 10 || c = 13 || c = 11 || c = 12

/-- Leading part of Python str.strip. -/
def stripLeft (s : PyStr) : PyStr := s.dropWhile isWS

/-- Trailing part of Python str.strip. -/
def stripRight (s : PyStr) : PyStr := (s.reverse.dropWhile isWS).reverse

/-- Python str.strip(): remove leading and trailing whitespace. -/
def pyStrip (s : PyStr) : PyStr := stripRight (stripLeft s)

/-- Lower-case one ASCII code point, as Python str.lower does on ASCII. -/
def lc (c : Nat) : Nat := if 65 ≤ c ∧ c ≤ 90 then c + 32 else c

/-- Python str.lower (restricted to the ASCII range the source uses). -/
def pyLower (s : PyStr) : PyStr := s.map lc

/-- Boolean test that the second list is a prefix of the first. -/
def startsWith : PyStr → PyStr → Bool
  | _, [] => true
  | [], _ :: _ => false
  | a :: s, b :: p => (a = b : Bool) && startsWith s p

/-- Python substring containment, the semantics of the in operator on
strings: hasSub s p is true when p occurs contiguously inside s. -/
def hasSub (s p : PyStr) : Bool :=
  match s with
  | [] => startsWith [] p
  | _ :: t => startsWith s p || hasSub t p

/-- One conversation turn of a call session, the dict with keys user and
assistant appended by process_speech in src/main.py. -/
structure Turn where
  user : PyStr
  assistant : PyStr
deriving DecidableEq

/-- Structured order dictionary produced by extract_order_info in
src/utils.py (the JSON schema in the extraction prompt).  String-valued
JSON fields are Option PyStr, null being none. -/
structure OrderInfo where
  customer_name : Option PyStr
  items : Option PyStr
  order_type : Option PyStr
  delivery_address : Option PyStr
  pickup_name : Option PyStr
  phone_number : Option PyStr
  special_instructions : Option PyStr
  payment_method : Option PyStr
  total_estimate : Option PyStr
  order_confirmed : Bool
deriving DecidableEq

/-- Keyword list of the fallback scan in extract_order_info
(src/utils.py line 167). -/
def KEYWORDS : List PyStr :=
  [ofStr ("pizza"), ofStr ("order"), ofStr ("want"), ofStr ("like"), ofStr ("get")]

/-- One loop step of the fallback scan: a turn whose lower-cased caller
text contains one of the keywords contributes its caller text. -/
def matchedTurn (t : Turn) : Bool :=
  KEYWORDS.any (fun kw => hasSub (pyLower t.user) kw)

/-- The items_text accumulator of the fallback branch of
extract_order_info (src/utils.py lines 164-168): the matched caller
utterances, each followed by a space (code point 32). -/
def fallbackItemsText (history : List Turn) : PyStr :=
  history.foldl (fun acc t => if matchedTurn t then acc ++ t.user ++ [32] else acc) []

/-- Placeholder items string of the fallback branch of
extract_order_info (src/utils.py line 172). -/
def FALLBACK_ITEMS : PyStr := ofStr ("Order details from conversation (extraction failed)")

/-- Embedding of extract_order_info (src/utils.py lines 97-181).  The
external LLM call is an oracle: some info is a successful extraction
whose JSON parsed to info, none is any failure (API error or
unparseable JSON), which takes the except branch and assembles the
best-effort fallback dictionary from the conversation. -/
def extract_order_info (llm : Option OrderInfo) (history : List Turn) : OrderInfo :=
  match llm with
  | some info => info
  | none =>
    let items_text := fallbackItemsText history
    { customer_name := none
      items := some (if items_text = [] then FALLBACK_ITEMS else pyStrip items_text)
      order_type := none
      delivery_address := none
      pickup_name := none
      phone_number := none
      special_instructions := none
      payment_method := none
      total_estimate := none
      order_confirmed := false }

/-- Fixed apologetic fallback utterance of generate_response
(src/utils.py line 94). -/
def GEN_FALLBACK : PyStr := ofStr ("I apologize, I\x27m having trouble processing that. Could you please repeat?")

/-- Embedding of generate_response (src/utils.py lines 44-94).  The
message assembly (system prompt plus the last four history turns) only
feeds the external model, so the oracle argument is the outcome of the
OpenAI call: some text is a successful completion, whose content the
code strips; none is any exception or timeout, which returns the fixed
fallback utterance. -/
def generate_response (llm : Option PyStr) : PyStr :=
  match llm with
  | some text => pyStrip text
  | none => GEN_FALLBACK

/-- The str(order_info.get("items", "") or "") conversion of
src/main.py line 235: a missing or null items field becomes the empty
string. -/
def itemsStr (info : OrderInfo) : PyStr := info.items.getD []

/-- The actionability check of src/main.py line 236: items_text truthy,
its lower case not one of null, none or empty, and its stripped length
greater than 2. -/
def has_items (info : OrderInfo) : Bool :=
  !(itemsStr info).isEmpty
    && !(decide (pyLower (itemsStr info) = ofStr ("null"))
         || decide (pyLower (itemsStr info) = ofStr ("none"))
         || decide (pyLower (itemsStr info) = ([] : PyStr)))
    && decide (2 < (pyStrip (itemsStr info)).length)

/-- One call session, the per-call dict created by get_call_session in
src/main.py lines 80-90.  Keys that later handler code adds to the dict
with session.get defaults are Option or Bool fields starting at their
Python-absent values. -/
structure CallSession where
  conversation_history : List Turn
  questions_asked : Nat
  appointment_info : List (PyStr × PyStr)
  is_emergency : Bool
  caller_phone : Option PyStr
  start_time : Option Nat
  organization_id : Option Nat
  order_info : Option OrderInfo
  order_saved : Bool
  order_id : Option Nat
deriving DecidableEq

/-- The fresh session value inserted by get_call_session. -/
def initSession : CallSession :=
  { conversation_history := []
    questions_asked := 0
    appointment_info := []
    is_emergency := false
    caller_phone := none
    start_time := none
    organization_id := none
    order_info := none
    order_saved := false
    order_id := none }

/-- The call_sessions module dict of src/main.py line 77, modelled as an
association list from call sid to session (Python dicts hold one entry
per key). -/
abbrev Sessions := List (PyStr × CallSession)

/-- Dict lookup call_sessions.get(call_sid). -/
def lookupSession : Sessions → PyStr → Option CallSession
  | [], _ => none
  | p :: t, sid => if p.1 = sid then some p.2 else lookupSession t sid

/-- Dict assignment for an existing key: in Python the handlers mutate
the session object in place, which this models by writing the new value
back at the key. -/
def setSession : Sessions → PyStr → CallSession → Sessions
  | [], _, _ => []
  | p :: t, sid, s => (if p.1 = sid then (sid, s) else p) :: setSession t sid s

/-- The del call_sessions[call_sid] of src/main.py line 372. -/
def removeSession : Sessions → PyStr → Sessions
  | [], _ => []
  | p :: t, sid => if p.1 = sid then removeSession t sid else p :: removeSession t sid

/-- Number of stored sessions whose key is sid. -/
def countKey : Sessions → PyStr → Nat
  | [], _ => 0
  | p :: t, sid => (if p.1 = sid then 1 else 0) + countKey t sid

/-- Embedding of get_call_session (src/main.py lines 80-90): return the
existing session for the sid, or insert and return a fresh one. -/
def get_call_session (ss : Sessions) (sid : PyStr) : Sessions × CallSession :=
  match lookupSession ss sid with
  | some s => (ss, s)
  | none => (ss ++ [(sid, initSession)], initSession)

/-- History of the stored session for sid, empty when absent. -/
def historyOf (ss : Sessions) (sid : PyStr) : List Turn :=
  match lookupSession ss sid with
  | some s => s.conversation_history
  | none => []

/-- One row of the orders table that save_order inserts into
(src/database.py lines 531-565).  Columns other than the ones below are
copied verbatim from the OrderInfo argument and read by no claim, so
they are kept on the info field. -/
structure OrderRow where
  id : Nat
  call_sid : PyStr
  caller_phone : PyStr
  info : OrderInfo
deriving DecidableEq

/-- Number of placeholders in the INSERT statement of save_order
(src/database.py lines 545-551: dollar-1 through dollar-12). -/
def SAVE_ORDER_PLACEHOLDERS : Nat := 12

/-- Number of positional arguments save_order actually hands to asyncpg
fetchval: the source wraps all twelve column values in one tuple
(src/database.py lines 552-564), so a single argument reaches the
driver, unlike the splatted calls elsewhere in the file (for example
save_conversation_turn at src/database.py line 507). -/
def SAVE_ORDER_ARGS : Nat := 1

/-- Embedding of save_order (src/database.py lines 531-565): an INSERT
INTO orders ... RETURNING id issued through asyncpg fetchval.  asyncpg
checks the number of supplied arguments against the number of query
placeholders at bind time, before any SQL runs; the source supplies one
tuple where the statement expects twelve values, so the check fails and
the call raises InterfaceError: no row is inserted and no id is
returned.  The ok branch is the appended row and SERIAL id (row count
plus one) the INSERT would produce if the argument counts matched; the
arity check makes it unreachable.  There is no update path in the
persistence layer. -/
def save_order (db : List OrderRow) (call_sid caller_phone : PyStr) (info : OrderInfo) :
    Except Unit (List OrderRow × Nat) :=
  if SAVE_ORDER_ARGS = SAVE_ORDER_PLACEHOLDERS then
    let oid := db.length + 1
    Except.ok
      (db ++ [{ id := oid, call_sid := call_sid, caller_phone := caller_phone, info := info }],
       oid)
  else
    Except.error ()

/-- Embedding of answer_call (src/main.py lines 93-144) restricted to
its session-store effect: get or create the session, then set its
caller phone and start time.  The TwiML greeting and the call-log row
do not touch the store. -/
def answer_call (ss : Sessions) (call_sid caller_phone : PyStr) (now : Nat) : Sessions :=
  let gs := get_call_session ss call_sid
  setSession gs.1 call_sid
    { gs.2 with caller_phone := some caller_phone, start_time := some now }

/-- The caller-response decision a /process request returns. -/
inductive SpeechOutcome where
  | reprompt
  | closing
  | reply (text : PyStr)
deriving DecidableEq

/-- Result of one /process webhook: the new store, the new orders table,
the outgoing response decision, and how many one-time order
notifications (save_order_simple e-mails) were sent. -/
structure SpeechResult where
  sessions : Sessions
  db : List OrderRow
  outcome : SpeechOutcome
  notifies : Nat
deriving DecidableEq

/-- The inline extraction-and-save block of process_speech (src/main.py
lines 227-255): once the history holds at least three turns, run the
extractor; when the result has items, attempt save_order, and only on a
successful save set order_saved, record the returned id, and send the
one-time notification (src/main.py lines 246-250).  The saveOk oracle
covers the connection and pool work preceding the statement bind; the
bind itself then raises either way (see save_order), the error is
caught at src/main.py line 251, and the conversation continues, so the
order_saved branch is never reached in any run of the source. -/
def extraction_gate (session : CallSession) (db : List OrderRow)
    (call_sid caller_phone : PyStr) (ext : Option OrderInfo) (saveOk : Bool) :
    CallSession × List OrderRow × Nat :=
  if 3 ≤ session.conversation_history.length then
    let order_info := extract_order_info ext session.conversation_history
    let session := { session with order_info := some order_info }
    if has_items order_info then
      if saveOk then
        match save_order db call_sid caller_phone order_info with
        | Except.ok r =>
          if session.order_saved then
            (session, r.1, 0)
          else
            ({ session with order_saved := true, order_id := some r.2 }, r.1, 1)
        | Except.error _ => (session, db, 0)
      else
        (session, db, 0)
    else
      (session, db, 0)
  else
    (session, db, 0)

/-- Closing-phrase list of src/main.py line 259. -/
def END_PHRASES : List PyStr :=
  [ofStr ("no"), ofStr ("no thanks"), ofStr ("nothing else"), ofStr ("that\x27s all"),
   ofStr ("no that\x27s it"), ofStr ("goodbye"), ofStr ("bye"), ofStr ("that\x27s everything"),
   ofStr ("yes that\x27s correct"), ofStr ("yes that\x27s right"), ofStr ("correct"),
   ofStr ("that\x27s correct")]

/-- Embedding of process_speech (src/main.py lines 147-295) for a
request carrying a call sid.  The SpeechResult input is stripped; an
empty result re-prompts without touching the history; otherwise the
turn is appended, the responder oracle fills the assistant text, the
extraction gate runs, and the closing heuristic (a closing phrase as a
substring of the lower-cased input AND order_saved) picks between the
closing message and the normal reply.  Tenant resolution and the
conversation-log insert affect no session or order state and are
omitted. -/
def process_speech (ss : Sessions) (db : List OrderRow) (call_sid caller_phone raw : PyStr)
    (llm : Option PyStr) (ext : Option OrderInfo) (saveOk : Bool) : SpeechResult :=
  let user_input := pyStrip raw
  let gs := get_call_session ss call_sid
  let session := { gs.2 with caller_phone := some caller_phone }
  if user_input = [] then
    { sessions := setSession gs.1 call_sid session, db := db,
      outcome := SpeechOutcome.reprompt, notifies := 0 }
  else
    let session := { session with
      conversation_history := session.conversation_history ++ [(⟨user_input, []⟩ : Turn)] }
    let ai := generate_response llm
    let session := { session with
      conversation_history := session.conversation_history.dropLast ++ [(⟨user_input, ai⟩ : Turn)] }
    let g := extraction_gate session db call_sid caller_phone ext saveOk
    let session := g.1
    let outcome :=
      if END_PHRASES.any (fun p => hasSub (pyLower user_input) p) && session.order_saved then
        SpeechOutcome.closing
      else
        SpeechOutcome.reply ai
    { sessions := setSession gs.1 call_sid session, db := g.2.1,
      outcome := outcome, notifies := g.2.2 }

/-- Result of one /hangup webhook: the new store and orders table, how
many times the extractor ran, how many conversation-summary e-mails
(send_order_summary_email at src/main.py line 361) were attempted, and
how many one-time order notifications (save_order_simple) were sent. -/
structure HangupResult where
  sessions : Sessions
  db : List OrderRow
  extractCalls : Nat
  summaryCalls : Nat
  notifies : Nat
deriving DecidableEq

/-- Embedding of hangup_call (src/main.py lines 298-376).  When the sid
has a session and its history is non-empty: run the extractor once; if
no order was saved yet, call save_order (insert) and send the one-time
notification, the notification being attempted even when the database
call raises; then always attempt the conversation-summary e-mail; the
session is deleted whenever it exists.  With an absent session or an
empty history the whole order block is skipped.  The except branch of a
failed save (src/main.py lines 342-348) still attempts the one-time
notification, so it counts either way. -/
def hangup_call (ss : Sessions) (db : List OrderRow) (call_sid caller_phone : PyStr)
    (ext : Option OrderInfo) (saveOk : Bool) : HangupResult :=
  match lookupSession ss call_sid with
  | none =>
    { sessions := ss, db := db, extractCalls := 0, summaryCalls := 0, notifies := 0 }
  | some session =>
    if session.conversation_history = [] then
      { sessions := removeSession ss call_sid, db := db,
        extractCalls := 0, summaryCalls := 0, notifies := 0 }
    else
      let order_info := extract_order_info ext session.conversation_history
      let saved :=
        if session.order_saved then
          (db, 0)
        else
          if saveOk then
            match save_order db call_sid caller_phone order_info with
            | Except.ok r => (r.1, 1)
            | Except.error _ => (db, 1)
          else
            (db, 1)
      { sessions := removeSession ss call_sid, db := saved.1,
        extractCalls := 1, summaryCalls := 1, notifies := saved.2 }

/-- Emergency keyword list of check_for_emergency (src/prompts.py lines
146-154). -/
def EMERGENCY_KEYWORDS : List PyStr :=
  [ofStr ("severe pain"), ofStr ("bleeding"), ofStr ("swelling"), ofStr ("infection"),
   ofStr ("can\x27t eat"), ofStr ("can\x27t sleep"), ofStr ("urgent"), ofStr ("emergency")]

/-- Embedding of check_for_emergency (src/prompts.py lines 146-154):
keyword scan, active only for doctor or dentist business types.  No
webhook handler calls it. -/
def check_for_emergency (businessType : Option PyStr) (user_input : PyStr) : Bool :=
  match businessType with
  | some t =>
    if t = ofStr ("doctor") ∨ t = ofStr ("dentist") then
      EMERGENCY_KEYWORDS.any (fun kw => hasSub (pyLower user_input) kw)
    else
      false
  | none => false

/-- One inbound webhook event for the orchestrator, carrying the
oracle outcomes of the external collaborators it will consult. -/
inductive Event where
  | start (sid phone : PyStr) (now : Nat)
  | turn (sid phone raw : PyStr) (llm : Option PyStr) (ext : Option OrderInfo) (saveOk : Bool)
  | hang (sid phone : PyStr) (ext : Option OrderInfo) (saveOk : Bool)

/-- Dispatch one webhook event to its handler. -/
def stepEvent (st : Sessions × List OrderRow) : Event → Sessions × List OrderRow
  | Event.start sid phone now => (answer_call st.1 sid phone now, st.2)
  | Event.turn sid phone raw llm ext saveOk =>
    let r := process_speech st.1 st.2 sid phone raw llm ext saveOk
    (r.sessions, r.db)
  | Event.hang sid phone ext saveOk =>
    let r := hangup_call st.1 st.2 sid phone ext saveOk
    (r.sessions, r.db)

/-- Run a whole sequence of webhook events from an empty store and an
empty orders table. -/
def runEvents (es : List Event) : Sessions × List OrderRow :=
  es.foldl stepEvent ([], [])

/-- Every stored session has its is_emergency flag clear. -/
def noEmergency : Sessions → Bool
  | [] => true
  | p :: t => !p.2.is_emergency && noEmergency t

/-- Inputs of one turn event against a fixed call: the raw utterance
and the oracle outcomes of the responder, extractor and database. -/
structure TurnInput where
  raw : PyStr
  llm : Option PyStr
  ext : Option OrderInfo
  saveOk : Bool

/-- Run a sequence of turn events for one call. -/
def runTurns (ss : Sessions) (db : List OrderRow) (sid phone : PyStr) :
    List TurnInput → Sessions × List OrderRow
  | [] => (ss, db)
  | t :: rest =>
    let r := process_speech ss db sid phone t.raw t.llm t.ext t.saveOk
    runTurns r.sessions r.db sid phone rest

/-- Writing a session back leaves lookups of that key pointing at the
written value, and an absent key stays absent. -/
theorem lookup_setSession (ss : Sessions) (sid : PyStr) (s : CallSession) :
    lookupSession (setSession ss sid s) sid = (lookupSession ss sid).map (fun _ => s) := by
  induction ss with
  | nil => rfl
  | cons p t ih =>
    by_cases h : p.1 = sid
    · simp [setSession, lookupSession, h]
    · simp [setSession, lookupSession, h, ih]

/-- Writing a session back never changes how many entries carry the key. -/
theorem countKey_setSession (ss : Sessions) (sid : PyStr) (s : CallSession) :
    countKey (setSession ss sid s) sid = countKey ss sid := by
  induction ss with
  | nil => rfl
  | cons p t ih =>
    by_cases h : p.1 = sid
    · simp [setSession, countKey, h, ih]
    · simp [setSession, countKey, h, ih]

/-- Appending a fresh entry for an absent key makes lookups find it. -/
theorem lookup_append_single (ss : Sessions) (sid : PyStr) (s : CallSession)
    (h : lookupSession ss sid = none) :
    lookupSession (ss ++ [(sid, s)]) sid = some s := by
  induction ss with
  | nil => simp [lookupSession]
  | cons p t ih =>
    by_cases hp : p.1 = sid
    · simp [lookupSession, hp] at h
    · simp only [lookupSession, hp] at h
      simpa [lookupSession, hp] using ih h

/-- Appending one entry for the key adds one to its count. -/
theorem countKey_append_single (ss : Sessions) (sid : PyStr) (s : CallSession) :
    countKey (ss ++ [(sid, s)]) sid = countKey ss sid + 1 := by
  induction ss with
  | nil => simp [countKey]
  | cons p t ih =>
    by_cases h : p.1 = sid
    · simp [countKey, h, ih]
      omega
    · simp [countKey, h, ih]

/-- A key is absent exactly when its entry count is zero. -/
theorem countKey_eq_zero_iff (ss : Sessions) (sid : PyStr) :
    countKey ss sid = 0 ↔ lookupSession ss sid = none := by
  induction ss with
  | nil => simp [countKey, lookupSession]
  | cons p t ih =>
    by_cases h : p.1 = sid
    · simp [countKey, lookupSession, h]
    · simp [countKey, lookupSession, h, ih]

/-- After get_call_session the key is always present and bound to the
returned session. -/
theorem lookup_get_call_session (ss : Sessions) (sid : PyStr) :
    lookupSession (get_call_session ss sid).1 sid = some (get_call_session ss sid).2 := by
  unfold get_call_session
  cases h : lookupSession ss sid with
  | some s => simp [h]
  | none => simp [lookup_append_single ss sid initSession h]

/-- The session returned by get_call_session carries the stored
history (empty when the session is fresh). -/
theorem get_call_session_history (ss : Sessions) (sid : PyStr) :
    (get_call_session ss sid).2.conversation_history = historyOf ss sid := by
  unfold get_call_session historyOf
  cases lookupSession ss sid <;> rfl

/-- Writing a session into the store produced by get_call_session makes
the key resolve to exactly that session. -/
theorem lookup_set_get (ss : Sessions) (sid : PyStr) (s : CallSession) :
    lookupSession (setSession (get_call_session ss sid).1 sid s) sid = some s := by
  rw [lookup_setSession, lookup_get_call_session]; rfl

/-- The extraction gate never touches the conversation history. -/
theorem extraction_gate_history (s : CallSession) (db : List OrderRow)
    (sid phone : PyStr) (ext : Option OrderInfo) (sv : Bool) :
    (extraction_gate s db sid phone ext sv).1.conversation_history = s.conversation_history := by
  simp only [extraction_gate]
  repeat' split
  all_goals rfl

/-- The extraction gate never touches the emergency flag. -/
theorem extraction_gate_emergency (s : CallSession) (db : List OrderRow)
    (sid phone : PyStr) (ext : Option OrderInfo) (sv : Bool) :
    (extraction_gate s db sid phone ext sv).1.is_emergency = s.is_emergency := by
  simp only [extraction_gate]
  repeat' split
  all_goals rfl

/-- Normal form of a non-empty turn: the stored session exists, its
history is the old history plus the new completed turn, and the outcome
is the closing message exactly when a closing phrase matches and the
stored order_saved flag (as left by the extraction gate) is set. -/
theorem process_speech_spec (ss : Sessions) (db : List OrderRow)
    (sid phone raw : PyStr) (llm : Option PyStr) (ext : Option OrderInfo) (sv : Bool)
    (h : ¬ pyStrip raw = []) :
    ∃ s' : CallSession,
      lookupSession (process_speech ss db sid phone raw llm ext sv).sessions sid = some s' ∧
      s'.conversation_history
        = historyOf ss sid ++ [(⟨pyStrip raw, generate_response llm⟩ : Turn)] ∧
      (process_speech ss db sid phone raw llm ext sv).outcome
        = (if END_PHRASES.any (fun p => hasSub (pyLower (pyStrip raw)) p) && s'.order_saved
           then SpeechOutcome.closing
           else SpeechOutcome.reply (generate_response llm)) := by
  simp only [process_speech, if_neg h]
  refine ⟨_, lookup_set_get _ _ _, ?_, rfl⟩
  rw [extraction_gate_history]
  simp [get_call_session_history]

/-- An empty-after-strip turn re-prompts and leaves the stored history
unchanged. -/
theorem process_speech_empty (ss : Sessions) (db : List OrderRow)
    (sid phone raw : PyStr) (llm : Option PyStr) (ext : Option OrderInfo) (sv : Bool)
    (h : pyStrip raw = []) :
    (process_speech ss db sid phone raw llm ext sv).outcome = SpeechOutcome.reprompt ∧
    historyOf (process_speech ss db sid phone raw llm ext sv).sessions sid = historyOf ss sid := by
  constructor
  · simp [process_speech, h]
  · simp only [process_speech, h, if_pos]
    unfold historyOf
    rw [lookup_set_get]
    simp only [get_call_session_history]
    rfl

/-- Writing a session back over a get_call_session store leaves exactly
that history at the key. -/
theorem historyOf_set_get (ss : Sessions) (sid : PyStr) (s : CallSession) :
    historyOf (setSession (get_call_session ss sid).1 sid s) sid = s.conversation_history := by
  unfold historyOf
  rw [lookup_set_get]

/-- Concrete call sid used by the witness scenarios. -/
def SID : PyStr := ofStr ("CA1")

/-- Concrete caller phone used by the witness scenarios. -/
def PHONE : PyStr := ofStr ("+15551234567")

/-- C4: a turn event whose utterance is empty or whitespace-only leaves
the conversation history of the session unchanged (nothing is appended)
and the response is the re-prompt asking the caller to repeat. -/
theorem c4_empty_turn_reprompts (ss : Sessions) (db : List OrderRow)
    (sid phone raw : PyStr) (llm : Option PyStr) (ext : Option OrderInfo) (sv : Bool)
    (h : pyStrip raw = []) :
    (process_speech ss db sid phone raw llm ext sv).outcome = SpeechOutcome.reprompt ∧
    historyOf (process_speech ss db sid phone raw llm ext sv).sessions sid = historyOf ss sid :=
  process_speech_empty ss db sid phone raw llm ext sv h

/-- Witness for c4_empty_turn_reprompts: a whitespace-only utterance on
a fresh call re-prompts and stores no turn. -/
theorem c4_empty_turn_reprompts_witness :
    (process_speech [] [] SID PHONE (ofStr ("   ")) none none true).outcome
      = SpeechOutcome.reprompt ∧
    historyOf (process_speech [] [] SID PHONE (ofStr ("   ")) none none true).sessions SID
      = historyOf [] SID :=
  c4_empty_turn_reprompts [] [] SID PHONE (ofStr ("   ")) none none true (by decide)

/-- C5: a duplicate call-start event for a call sid whose store holds at
most one session leaves exactly one session for that sid and does not
reset its (possibly non-empty) conversation history. -/
theorem c5_duplicate_start_idempotent (ss : Sessions) (sid phone : PyStr) (now : Nat)
    (h : countKey ss sid ≤ 1) :
    countKey (answer_call ss sid phone now) sid = 1 ∧
    historyOf (answer_call ss sid phone now) sid = historyOf ss sid := by
  unfold answer_call
  constructor
  · rw [countKey_setSession]
    unfold get_call_session
    cases hl : lookupSession ss sid with
    | some s =>
      have h0 : countKey ss sid ≠ 0 := by
        intro h0
        rw [countKey_eq_zero_iff] at h0
        simp [h0] at hl
      simpa using by omega
    | none =>
      have h0 : countKey ss sid = 0 := (countKey_eq_zero_iff ss sid).mpr hl
      simpa [countKey_append_single] using by omega
  · rw [historyOf_set_get]
    exact get_call_session_history ss sid

/-- Witness for c5_duplicate_start_idempotent: after a start event and a
non-empty turn, a duplicate start keeps one session and the one-turn
history. -/
theorem c5_duplicate_start_idempotent_witness :
    countKey (answer_call (process_speech (answer_call [] SID PHONE 0) [] SID PHONE
        (ofStr ("hello")) (some (ofStr ("Hi there!"))) none true).sessions SID PHONE 9) SID = 1 ∧
    historyOf (answer_call (process_speech (answer_call [] SID PHONE 0) [] SID PHONE
        (ofStr ("hello")) (some (ofStr ("Hi there!"))) none true).sessions SID PHONE 9) SID
      = historyOf (process_speech (answer_call [] SID PHONE 0) [] SID PHONE
        (ofStr ("hello")) (some (ofStr ("Hi there!"))) none true).sessions SID :=
  c5_duplicate_start_idempotent (process_speech (answer_call [] SID PHONE 0) [] SID PHONE
    (ofStr ("hello")) (some (ofStr ("Hi there!"))) none true).sessions SID PHONE 9 (by decide)

/-- C6: running any sequence of turn events with non-empty (after
stripping) utterances appends exactly those turns, in submission order,
after the existing history: so after N such turns the history has grown
by exactly N and no earlier turn was removed or reordered. -/
theorem c6_history_append_only (ss : Sessions) (db : List OrderRow) (sid phone : PyStr)
    (inputs : List TurnInput)
    (h : ∀ t ∈ inputs, ¬ pyStrip t.raw = []) :
    historyOf (runTurns ss db sid phone inputs).1 sid
      = historyOf ss sid
        ++ inputs.map (fun t => (⟨pyStrip t.raw, generate_response t.llm⟩ : Turn)) ∧
    (historyOf (runTurns ss db sid phone inputs).1 sid).length
      = (historyOf ss sid).length + inputs.length := by
  have main : ∀ (inputs : List TurnInput) (ss : Sessions) (db : List OrderRow),
      (∀ t ∈ inputs, ¬ pyStrip t.raw = []) →
      historyOf (runTurns ss db sid phone inputs).1 sid
        = historyOf ss sid
          ++ inputs.map (fun t => (⟨pyStrip t.raw, generate_response t.llm⟩ : Turn)) := by
    intro inputs
    induction inputs with
    | nil => intro ss db _; simp [runTurns]
    | cons t rest ih =>
      intro ss db hall
      obtain ⟨s', hl, hh, _⟩ :=
        process_speech_spec ss db sid phone t.raw t.llm t.ext t.saveOk (hall t (by simp))
      have hstep :
          historyOf (process_speech ss db sid phone t.raw t.llm t.ext t.saveOk).sessions sid
            = historyOf ss sid ++ [(⟨pyStrip t.raw, generate_response t.llm⟩ : Turn)] := by
        unfold historyOf
        rw [hl]
        exact hh
      simp only [runTurns]
      rw [ih _ _ (fun x hx => hall x (by simp [hx])), hstep]
      simp
  refine ⟨main inputs ss db h, ?_⟩
  rw [main inputs ss db h]
  simp

/-- Witness for c6_history_append_only: two non-empty turns on a fresh
call leave exactly the two submitted turns in order. -/
theorem c6_history_append_only_witness :
    historyOf (runTurns [] [] SID PHONE
        [⟨ofStr ("hello"), some (ofStr ("Hi!")), none, true⟩,
         ⟨ofStr ("i want a pizza"), none, none, true⟩]).1 SID
      = historyOf [] SID
        ++ [(⟨ofStr ("hello"), pyStrip (ofStr ("Hi!"))⟩ : Turn),
            (⟨ofStr ("i want a pizza"), GEN_FALLBACK⟩ : Turn)] ∧
    (historyOf (runTurns [] [] SID PHONE
        [⟨ofStr ("hello"), some (ofStr ("Hi!")), none, true⟩,
         ⟨ofStr ("i want a pizza"), none, none, true⟩]).1 SID).length
      = (historyOf [] SID).length + 2 := by
  have := c6_history_append_only [] [] SID PHONE
    [⟨ofStr ("hello"), some (ofStr ("Hi!")), none, true⟩,
     ⟨ofStr ("i want a pizza"), none, none, true⟩] (by decide)
  simpa [pyStrip, stripLeft, stripRight, generate_response] using this

/-- C7: when the language responder fails, the turn stores the fixed
apologetic fallback as the assistant text of the new history entry and
the call continues with that fallback as the spoken reply (here stated
for turns that do not match the closing heuristic). -/
theorem c7_responder_failure_fallback (ss : Sessions) (db : List OrderRow)
    (sid phone raw : PyStr) (ext : Option OrderInfo) (sv : Bool)
    (h1 : ¬ pyStrip raw = [])
    (h2 : END_PHRASES.any (fun p => hasSub (pyLower (pyStrip raw)) p) = false) :
    (process_speech ss db sid phone raw none ext sv).outcome
      = SpeechOutcome.reply GEN_FALLBACK ∧
    (historyOf (process_speech ss db sid phone raw none ext sv).sessions sid).getLast?
      = some (⟨pyStrip raw, GEN_FALLBACK⟩ : Turn) := by
  obtain ⟨s', hl, hh, ho⟩ := process_speech_spec ss db sid phone raw none ext sv h1
  refine ⟨?_, ?_⟩
  · rw [ho, h2]
    simp [generate_response]
  · unfold historyOf
    rw [hl]
    simp [hh, generate_response]

/-- Witness for c7_responder_failure_fallback: a responder failure on a
menu question still answers with the fixed fallback and records it. -/
theorem c7_responder_failure_fallback_witness :
    (process_speech [] [] SID PHONE (ofStr ("what pizzas do you have")) none none true).outcome
      = SpeechOutcome.reply GEN_FALLBACK ∧
    (historyOf (process_speech [] [] SID PHONE
        (ofStr ("what pizzas do you have")) none none true).sessions SID).getLast?
      = some (⟨pyStrip (ofStr ("what pizzas do you have")), GEN_FALLBACK⟩ : Turn) :=
  c7_responder_failure_fallback [] [] SID PHONE (ofStr ("what pizzas do you have")) none true
    (by decide) (by decide)

/-- C8: on a turn matching a closing phrase the handler answers the
closing message exactly when the order_saved flag of the stored session
(the value the source consults, right after the extraction gate) is
set, answers the normal reply when it is clear, and in both cases the
session stays in the store: only the end event removes sessions. -/
theorem c8_closing_keeps_session (ss : Sessions) (db : List OrderRow)
    (sid phone raw : PyStr) (llm : Option PyStr) (ext : Option OrderInfo) (sv : Bool)
    (h1 : ¬ pyStrip raw = [])
    (h2 : END_PHRASES.any (fun p => hasSub (pyLower (pyStrip raw)) p) = true) :
    ∃ s' : CallSession,
      lookupSession (process_speech ss db sid phone raw llm ext sv).sessions sid = some s' ∧
      (process_speech ss db sid phone raw llm ext sv).outcome
        = (if s'.order_saved then SpeechOutcome.closing
           else SpeechOutcome.reply (generate_response llm)) := by
  obtain ⟨s', hl, _, ho⟩ := process_speech_spec ss db sid phone raw llm ext sv h1
  refine ⟨s', hl, ?_⟩
  rw [ho, h2]
  simp

/-- Witness for c8_closing_keeps_session: a goodbye on a fresh call
keeps the session stored and, the order being unsaved, replies
normally instead of closing. -/
theorem c8_closing_keeps_session_witness :
    ∃ s' : CallSession,
      lookupSession (process_speech [] [] SID PHONE
          (ofStr ("goodbye")) none none false).sessions SID = some s' ∧
      (process_speech [] [] SID PHONE (ofStr ("goodbye")) none none false).outcome
        = (if s'.order_saved then SpeechOutcome.closing
           else SpeechOutcome.reply (generate_response none)) :=
  c8_closing_keeps_session [] [] SID PHONE (ofStr ("goodbye")) none none false
    (by decide) (by decide)

/-- Characterization of the prefix test. -/
theorem startsWith_iff (p : PyStr) : ∀ s, startsWith s p = true ↔ ∃ t, s = p ++ t := by
  induction p with
  | nil => intro s; simp [startsWith]
  | cons b p ih =>
    intro s
    cases s with
    | nil => simp [startsWith]
    | cons a s =>
      simp only [startsWith, Bool.and_eq_true, decide_eq_true_eq, ih, List.cons_append,
        List.cons.injEq]
      constructor
      · rintro ⟨hab, t, ht⟩
        exact ⟨t, hab, ht⟩
      · rintro ⟨t, hab, ht⟩
        exact ⟨hab, t, ht⟩

/-- Characterization of substring containment. -/
theorem hasSub_iff (s p : PyStr) : hasSub s p = true ↔ ∃ a b, s = a ++ p ++ b := by
  induction s with
  | nil =>
    cases p with
    | nil => simp [hasSub, startsWith]
    | cons c q =>
      simp only [hasSub, startsWith]
      constructor
      · intro h; cases h
      · rintro ⟨a, b, hab⟩
        exact absurd hab.symm (by simp)
  | cons c t ih =>
    simp only [hasSub, Bool.or_eq_true, startsWith_iff, ih]
    constructor
    · rintro (⟨u, hu⟩ | ⟨a, b, hab⟩)
      · exact ⟨[], u, by simpa using hu⟩
      · exact ⟨c :: a, b, by simp [hab]⟩
    · rintro ⟨a, b, hab⟩
      cases a with
      | nil => exact Or.inl ⟨b, by simpa using hab⟩
      | cons x a =>
        simp only [List.cons_append, List.cons.injEq] at hab
        exact Or.inr ⟨a, b, hab.2⟩

/-- A substring is never longer than its host. -/
theorem length_le_of_hasSub (s p : PyStr) (h : hasSub s p = true) : p.length ≤ s.length := by
  obtain ⟨a, b, rfl⟩ := (hasSub_iff s p).mp h
  simp only [List.length_append]
  omega

/-- Substring containment survives embedding into a larger string. -/
theorem hasSub_embed (a s b p : PyStr) (h : hasSub s p = true) :
    hasSub (a ++ s ++ b) p = true := by
  obtain ⟨x, y, rfl⟩ := (hasSub_iff s p).mp h
  refine (hasSub_iff _ p).mpr ⟨a ++ x, y ++ b, ?_⟩
  simp

/-- Every string contains the empty string. -/
theorem hasSub_nil_right (s : PyStr) : hasSub s [] = true := by
  cases s <;> simp [hasSub, startsWith]

/-- Lower-casing never changes whether a code point is whitespace. -/
theorem isWS_lc (c : Nat) : isWS (lc c) = isWS c := by
  unfold lc
  split
  · next h =>
    have h1 : isWS (c + 32) = false := by simp [isWS]; omega
    have h2 : isWS c = false := by simp [isWS]; omega
    rw [h1, h2]
  · rfl

/-- Lower-casing commutes with stripping on the left. -/
theorem stripLeft_pyLower (s : PyStr) : stripLeft (pyLower s) = pyLower (stripLeft s) := by
  unfold stripLeft pyLower
  have hfun : (isWS ∘ lc) = isWS := funext isWS_lc
  rw [List.dropWhile_map, hfun]

/-- Lower-casing commutes with stripping on the right. -/
theorem stripRight_pyLower (s : PyStr) : stripRight (pyLower s) = pyLower (stripRight s) := by
  unfold stripRight pyLower
  have hfun : (isWS ∘ lc) = isWS := funext isWS_lc
  rw [← List.map_reverse, List.dropWhile_map, hfun, List.map_reverse]

/-- Lower-casing commutes with Python strip. -/
theorem pyStrip_pyLower (s : PyStr) : pyStrip (pyLower s) = pyLower (pyStrip s) := by
  unfold pyStrip
  rw [stripLeft_pyLower, stripRight_pyLower]

/-- Dropping leading whitespace cannot destroy an occurrence of a
whitespace-free substring. -/
theorem hasSub_dropWhile (s p : PyStr) (hp : ∀ c ∈ p, isWS c = false)
    (h : hasSub s p = true) : hasSub (s.dropWhile isWS) p = true := by
  induction s with
  | nil => simpa using h
  | cons c t ih =>
    by_cases hc : isWS c = true
    · rw [List.dropWhile_cons, if_pos hc]
      apply ih
      cases p with
      | nil => exact hasSub_nil_right t
      | cons d q =>
        simp only [hasSub, Bool.or_eq_true] at h
        rcases h with hsw | hsub
        · exfalso
          simp only [startsWith, Bool.and_eq_true, decide_eq_true_eq] at hsw
          have hd := hp d (by simp)
          rw [← hsw.1] at hd
          rw [hc] at hd
          cases hd
        · exact hsub
    · rw [List.dropWhile_cons, if_neg hc]
      exact h

/-- Substring containment is preserved by reversing both strings. -/
theorem hasSub_reverse (s p : PyStr) (h : hasSub s p = true) :
    hasSub s.reverse p.reverse = true := by
  obtain ⟨a, b, rfl⟩ := (hasSub_iff s p).mp h
  refine (hasSub_iff _ _).mpr ⟨b.reverse, a.reverse, ?_⟩
  simp

/-- Python strip cannot destroy an occurrence of a whitespace-free
substring. -/
theorem hasSub_pyStrip (s p : PyStr) (hp : ∀ c ∈ p, isWS c = false)
    (h : hasSub s p = true) : hasSub (pyStrip s) p = true := by
  have h1 : hasSub (s.dropWhile isWS) p = true := hasSub_dropWhile s p hp h
  have h2 := hasSub_reverse _ _ h1
  have h3 : hasSub ((s.dropWhile isWS).reverse.dropWhile isWS) p.reverse = true := by
    refine hasSub_dropWhile _ _ ?_ h2
    intro c hcmem
    exact hp c (by simpa using hcmem)
  have h4 := hasSub_reverse _ _ h3
  simpa [pyStrip, stripLeft, stripRight] using h4

/-- Right-fold form of the fallback items accumulator, for induction. -/
def textOf : List Turn → PyStr
  | [] => []
  | t :: r => (if matchedTurn t then t.user ++ [32] else []) ++ textOf r

/-- The foldl accumulator equals the right-fold form. -/
theorem fallbackItemsText_eq (history : List Turn) :
    fallbackItemsText history = textOf history := by
  have main : ∀ (h : List Turn) (acc : PyStr),
      h.foldl (fun acc t => if matchedTurn t then acc ++ t.user ++ [32] else acc) acc
        = acc ++ textOf h := by
    intro h
    induction h with
    | nil => intro acc; simp [textOf]
    | cons t r ih =>
      intro acc
      simp only [List.foldl_cons, textOf]
      by_cases hm : matchedTurn t
      · rw [if_pos hm, if_pos hm, ih]
        simp
      · rw [if_neg hm, if_neg hm, ih]
        simp
  simpa [fallbackItemsText] using main history []

/-- A non-empty fallback accumulator contains (lower-cased) one of the
scanned keywords as a substring. -/
theorem textOf_keyword (history : List Turn) (h : ¬ textOf history = []) :
    ∃ kw ∈ KEYWORDS, hasSub (pyLower (textOf history)) kw = true := by
  induction history with
  | nil => simp [textOf] at h
  | cons t r ih =>
    by_cases hm : matchedTurn t = true
    · have hm2 := hm
      unfold matchedTurn at hm2
      obtain ⟨kw, hkmem, hk⟩ := List.any_eq_true.mp hm2
      refine ⟨kw, hkmem, ?_⟩
      simp only [textOf, if_pos hm]
      unfold pyLower at hk ⊢
      have := hasSub_embed [] (t.user.map lc) (([32] ++ textOf r).map lc) kw hk
      simpa [List.append_assoc] using this
    · simp only [textOf, if_neg hm, List.nil_append] at h ⊢
      exact ih h

/-- Concrete facts about the five scan keywords: none contains
whitespace, each has length at least three, and none occurs inside the
null or none tokens. -/
theorem keywords_facts : ∀ kw ∈ KEYWORDS, (∀ c ∈ kw, isWS c = false) ∧ 3 ≤ kw.length ∧
    hasSub (ofStr ("null")) kw = false ∧ hasSub (ofStr ("none")) kw = false := by decide

/-- C9: extract_order_info is total (by construction of the embedding)
and on any extractor failure the fallback dictionary carries a
non-empty items string (the matched caller utterances, or the fixed
placeholder), which always passes the actionability check of the
orchestrator, so a failed extraction can still trigger order
persistence. -/
theorem c9_fallback_items_actionable (history : List Turn) :
    (extract_order_info none history).items ≠ none ∧
    itemsStr (extract_order_info none history) ≠ [] ∧
    has_items (extract_order_info none history) = true := by
  by_cases h : fallbackItemsText history = []
  · have hrec : extract_order_info none history =
        { customer_name := none, items := some FALLBACK_ITEMS, order_type := none,
          delivery_address := none, pickup_name := none, phone_number := none,
          special_instructions := none, payment_method := none, total_estimate := none,
          order_confirmed := false } := by
      simp [extract_order_info, h]
    rw [hrec]
    refine ⟨by simp, by decide, by decide⟩
  · have hrec : extract_order_info none history =
        { customer_name := none, items := some (pyStrip (fallbackItemsText history)),
          order_type := none, delivery_address := none, pickup_name := none,
          phone_number := none, special_instructions := none, payment_method := none,
          total_estimate := none, order_confirmed := false } := by
      simp [extract_order_info, h]
    obtain ⟨kw, hkmem, hk⟩ := textOf_keyword history (by rwa [← fallbackItemsText_eq])
    rw [← fallbackItemsText_eq] at hk
    obtain ⟨hnws, hklen, hnull, hnone⟩ := keywords_facts kw hkmem
    have hstripped : hasSub (pyLower (pyStrip (fallbackItemsText history))) kw = true := by
      have := hasSub_pyStrip _ _ hnws hk
      rwa [pyStrip_pyLower] at this
    have hlen : 3 ≤ (pyStrip (fallbackItemsText history)).length := by
      have hle := length_le_of_hasSub _ _ hstripped
      have : (pyLower (pyStrip (fallbackItemsText history))).length
          = (pyStrip (fallbackItemsText history)).length := by
        simp [pyLower]
      omega
    have hi : itemsStr (extract_order_info none history)
        = pyStrip (fallbackItemsText history) := by
      rw [hrec]
      rfl
    refine ⟨by rw [hrec]; simp, ?_, ?_⟩
    · rw [hi]
      intro h0
      rw [h0] at hlen
      simp at hlen
    · unfold has_items
      rw [hi]
      have hstr2 : hasSub (pyStrip (pyLower (pyStrip (fallbackItemsText history)))) kw = true :=
        hasSub_pyStrip _ _ hnws hstripped
      have hlen2 : 3 ≤ (pyStrip (pyStrip (fallbackItemsText history))).length := by
        have hle := length_le_of_hasSub _ _ hstr2
        rw [pyStrip_pyLower] at hle
        have hmap : (pyLower (pyStrip (pyStrip (fallbackItemsText history)))).length
            = (pyStrip (pyStrip (fallbackItemsText history))).length := by
          simp [pyLower]
        omega
      have e1 : (pyStrip (fallbackItemsText history)).isEmpty = false := by
        cases hx : pyStrip (fallbackItemsText history) with
        | nil => rw [hx] at hlen; simp at hlen
        | cons u v => simp
      have e2 : ¬ pyLower (pyStrip (fallbackItemsText history)) = ofStr ("null") := by
        intro hx
        rw [hx] at hstripped
        rw [hstripped] at hnull
        cases hnull
      have e3 : ¬ pyLower (pyStrip (fallbackItemsText history)) = ofStr ("none") := by
        intro hx
        rw [hx] at hstripped
        rw [hstripped] at hnone
        cases hnone
      have e4 : ¬ pyLower (pyStrip (fallbackItemsText history)) = ([] : PyStr) := by
        intro hx
        have hz : (pyLower (pyStrip (fallbackItemsText history))).length = 0 := by
          rw [hx]; rfl
        simp [pyLower] at hz
        rw [hz] at hlen
        simp at hlen
      have e5 : (decide (pyLower (pyStrip (fallbackItemsText history)) = ofStr ("null"))
          || decide (pyLower (pyStrip (fallbackItemsText history)) = ofStr ("none"))
          || decide (pyLower (pyStrip (fallbackItemsText history)) = ([] : PyStr))) = false := by
        simp [e2, e3, e4]
      rw [e1, e5]
      simp only [Bool.not_false, Bool.true_and, decide_eq_true_eq]
      omega

/-- Under the all-clear invariant, any stored session has a clear flag. -/
theorem noEmergency_lookup (ss : Sessions) (sid : PyStr) (s : CallSession)
    (hinv : noEmergency ss = true) (hl : lookupSession ss sid = some s) :
    s.is_emergency = false := by
  induction ss with
  | nil => cases hl
  | cons p t ih =>
    simp only [noEmergency, Bool.and_eq_true, Bool.not_eq_true'] at hinv
    by_cases h : p.1 = sid
    · simp only [lookupSession, if_pos h, Option.some.injEq] at hl
      rw [← hl]
      exact hinv.1
    · simp only [lookupSession, if_neg h] at hl
      exact ih hinv.2 hl

/-- Writing back a clear-flag session preserves the invariant. -/
theorem noEmergency_setSession (ss : Sessions) (sid : PyStr) (s : CallSession)
    (hinv : noEmergency ss = true) (hs : s.is_emergency = false) :
    noEmergency (setSession ss sid s) = true := by
  induction ss with
  | nil => rfl
  | cons p t ih =>
    simp only [noEmergency, Bool.and_eq_true, Bool.not_eq_true'] at hinv
    by_cases h : p.1 = sid
    · simp [setSession, noEmergency, h, hs, ih hinv.2]
    · simp [setSession, noEmergency, h, hinv.1, ih hinv.2]

/-- Appending a clear-flag session preserves the invariant. -/
theorem noEmergency_append_single (ss : Sessions) (sid : PyStr) (s : CallSession)
    (hinv : noEmergency ss = true) (hs : s.is_emergency = false) :
    noEmergency (ss ++ [(sid, s)]) = true := by
  induction ss with
  | nil => simp [noEmergency, hs]
  | cons p t ih =>
    simp only [noEmergency, Bool.and_eq_true, Bool.not_eq_true'] at hinv
    simp [noEmergency, hinv.1, ih hinv.2]

/-- Deleting a session preserves the invariant. -/
theorem noEmergency_removeSession (ss : Sessions) (sid : PyStr)
    (hinv : noEmergency ss = true) : noEmergency (removeSession ss sid) = true := by
  induction ss with
  | nil => rfl
  | cons p t ih =>
    simp only [noEmergency, Bool.and_eq_true, Bool.not_eq_true'] at hinv
    by_cases h : p.1 = sid
    · simp [removeSession, h, ih hinv.2]
    · simp [removeSession, noEmergency, h, hinv.1, ih hinv.2]

/-- get_call_session preserves the invariant and hands back a session
with a clear flag. -/
theorem noEmergency_get_call_session (ss : Sessions) (sid : PyStr)
    (hinv : noEmergency ss = true) :
    noEmergency (get_call_session ss sid).1 = true ∧
    (get_call_session ss sid).2.is_emergency = false := by
  unfold get_call_session
  cases hl : lookupSession ss sid with
  | some s => exact ⟨hinv, noEmergency_lookup ss sid s hinv hl⟩
  | none => exact ⟨noEmergency_append_single ss sid initSession hinv rfl, rfl⟩

/-- The call-start handler never sets the emergency flag. -/
theorem noEmergency_answer (ss : Sessions) (sid phone : PyStr) (now : Nat)
    (hinv : noEmergency ss = true) :
    noEmergency (answer_call ss sid phone now) = true := by
  obtain ⟨h1, h2⟩ := noEmergency_get_call_session ss sid hinv
  exact noEmergency_setSession _ _ _ h1 h2

/-- The turn handler never sets the emergency flag. -/
theorem noEmergency_process (ss : Sessions) (db : List OrderRow)
    (sid phone raw : PyStr) (llm : Option PyStr) (ext : Option OrderInfo) (sv : Bool)
    (hinv : noEmergency ss = true) :
    noEmergency (process_speech ss db sid phone raw llm ext sv).sessions = true := by
  obtain ⟨h1, h2⟩ := noEmergency_get_call_session ss sid hinv
  simp only [process_speech]
  split_ifs
  · exact noEmergency_setSession _ _ _ h1 h2
  all_goals
    refine noEmergency_setSession _ _ _ h1 ?_
    rw [extraction_gate_emergency]
    exact h2

/-- The call-end handler never sets the emergency flag. -/
theorem noEmergency_hangup (ss : Sessions) (db : List OrderRow)
    (sid phone : PyStr) (ext : Option OrderInfo) (sv : Bool)
    (hinv : noEmergency ss = true) :
    noEmergency (hangup_call ss db sid phone ext sv).sessions = true := by
  unfold hangup_call
  cases hl : lookupSession ss sid with
  | none => simpa using hinv
  | some s =>
    simp only
    split_ifs <;> exact noEmergency_removeSession ss sid hinv

/-- C10: across every sequence of start, turn and end webhook events,
every stored session keeps is_emergency clear: the flag is initialized
false at session creation and no webhook handler ever flags an
emergency (neither check_for_emergency nor the database emergency mark
is reachable from any handler). -/
theorem c10_no_emergency (es : List Event) : noEmergency (runEvents es).1 = true := by
  suffices main : ∀ (es : List Event) (st : Sessions × List OrderRow),
      noEmergency st.1 = true → noEmergency (es.foldl stepEvent st).1 = true by
    exact main es ([], []) rfl
  intro es
  induction es with
  | nil => intro st h; simpa using h
  | cons e rest ih =>
    intro st h
    simp only [List.foldl_cons]
    apply ih
    cases e with
    | start sid phone now => exact noEmergency_answer st.1 sid phone now h
    | turn sid phone raw llm ext sv =>
      exact noEmergency_process st.1 st.2 sid phone raw llm ext sv h
    | hang sid phone ext sv => exact noEmergency_hangup st.1 st.2 sid phone ext sv h

/-- Characterization of the end-of-call order block for an existing
session: both the forced extraction and the summary notification run
exactly when the stored history is non-empty, independently of the
extraction outcome, the saved flag and the database outcome. -/
theorem hangup_call_counts (ss : Sessions) (db : List OrderRow)
    (sid phone : PyStr) (ext : Option OrderInfo) (sv : Bool) (s : CallSession)
    (hl : lookupSession ss sid = some s) :
    (hangup_call ss db sid phone ext sv).extractCalls
      = (if s.conversation_history = [] then 0 else 1) ∧
    (hangup_call ss db sid phone ext sv).summaryCalls
      = (if s.conversation_history = [] then 0 else 1) := by
  simp only [hangup_call, hl]
  by_cases h : s.conversation_history = []
  · simp [h]
  · simp [h]

/-- C2 as stated is false on the source: for an existing session with
empty history the end-of-call handler skips the forced extraction
entirely (the whole order block sits under an if on non-empty
history), so the extractor runs zero times, not once. -/
theorem c2_counterexample_empty_history_skips_extraction :
    (hangup_call (answer_call [] SID PHONE 0) [] SID PHONE none true).extractCalls = 0 := by
  rfl

/-- C2 amended: on a call-end event for an existing session the forced
extraction runs exactly once whenever the history is non-empty (in
particular even when fewer than three turns happened), and is skipped
when the history is empty. -/
theorem c2_end_extraction_iff_nonempty_history (ss : Sessions) (db : List OrderRow)
    (sid phone : PyStr) (ext : Option OrderInfo) (sv : Bool) (s : CallSession)
    (hl : lookupSession ss sid = some s) :
    (hangup_call ss db sid phone ext sv).extractCalls
      = (if s.conversation_history = [] then 0 else 1) :=
  (hangup_call_counts ss db sid phone ext sv s hl).1

/-- Witness for c2_end_extraction_iff_nonempty_history: after a single
turn (below the three-turn cadence) the end event still runs the
forced extraction exactly once. -/
theorem c2_end_extraction_iff_nonempty_history_witness :
    (hangup_call (process_speech (answer_call [] SID PHONE 0) [] SID PHONE
        (ofStr ("hello")) none none true).sessions [] SID PHONE none true).extractCalls = 1 := by
  have h := c2_end_extraction_iff_nonempty_history
    (process_speech (answer_call [] SID PHONE 0) [] SID PHONE
      (ofStr ("hello")) none none true).sessions [] SID PHONE none true
    { conversation_history := [⟨ofStr ("hello"), GEN_FALLBACK⟩]
      questions_asked := 0
      appointment_info := []
      is_emergency := false
      caller_phone := some PHONE
      start_time := some 0
      organization_id := none
      order_info := none
      order_saved := false
      order_id := none }
    (by decide)
  simpa using h

/-- C3 as stated is false on the source: for an existing session with
empty history no conversation-summary notification is attempted at all
(the send sits inside the same if on non-empty history), rather than
being invoked with empty data. -/
theorem c3_counterexample_empty_history_skips_summary :
    (hangup_call (answer_call [] SID PHONE 0) [] SID PHONE none true).summaryCalls = 0 := by
  rfl

/-- C3 amended: on a call-end event for an existing session the
conversation-summary notification is attempted exactly once whenever
the history is non-empty, regardless of the extraction outcome, of
whether any order was ever actionable or saved, and of the database
outcome; with an empty history it is skipped. -/
theorem c3_summary_iff_nonempty_history (ss : Sessions) (db : List OrderRow)
    (sid phone : PyStr) (ext : Option OrderInfo) (sv : Bool) (s : CallSession)
    (hl : lookupSession ss sid = some s) :
    (hangup_call ss db sid phone ext sv).summaryCalls
      = (if s.conversation_history = [] then 0 else 1) :=
  (hangup_call_counts ss db sid phone ext sv s hl).2

/-- Witness for c3_summary_iff_nonempty_history: after one turn the end
event sends the summary exactly once even though the extractor failed
(fallback result) and the database save fails. -/
theorem c3_summary_iff_nonempty_history_witness :
    (hangup_call (process_speech (answer_call [] SID PHONE 0) [] SID PHONE
        (ofStr ("hello")) none none true).sessions [] SID PHONE none false).summaryCalls = 1 := by
  have h := c3_summary_iff_nonempty_history
    (process_speech (answer_call [] SID PHONE 0) [] SID PHONE
      (ofStr ("hello")) none none true).sessions [] SID PHONE none false
    { conversation_history := [⟨ofStr ("hello"), GEN_FALLBACK⟩]
      questions_asked := 0
      appointment_info := []
      is_emergency := false
      caller_phone := some PHONE
      start_time := some 0
      organization_id := none
      order_info := none
      order_saved := false
      order_id := none }
    (by decide)
  simpa using h

/-- Concrete actionable extraction used by the duplicate-creation run. -/
def INFO_W : OrderInfo :=
  { customer_name := none
    items := some (ofStr ("1 Vodka Pizza"))
    order_type := some (ofStr ("pickup"))
    delivery_address := none
    pickup_name := none
    phone_number := none
    special_instructions := none
    payment_method := none
    total_estimate := none
    order_confirmed := true }

/-- C1 is doubly violated by the source.  First, the persistence layer
has no update path at all: save_order is the only write and the turn
handler attempts it afresh on every actionable turn.  Second, the
attempt can never succeed: save_order hands asyncpg one tuple for a
twelve-placeholder statement, so every invocation raises InterfaceError
at bind (first conjunct, for all inputs).  Consequently the run below
(one call whose third and fourth turns are both actionable, with the
database reachable) ends with an empty orders table and a session whose
order_saved flag and persisted id were never set: Persistence Create is
attempted twice and succeeds zero times, and Persistence Update is
never invoked, against the claimed exactly-once create followed by
updates. -/
theorem c1_persistence_create_never_succeeds :
    (∀ (db : List OrderRow) (call_sid caller_phone : PyStr) (info : OrderInfo),
      save_order db call_sid caller_phone info = Except.error ()) ∧
    (runTurns (answer_call [] SID PHONE 0) [] SID PHONE
        [⟨ofStr ("hello"), some (ofStr ("Hi! What can I do for you?")), none, true⟩,
         ⟨ofStr ("i would like a vodka pizza for pickup"),
          some (ofStr ("Great, anything else?")), none, true⟩,
         ⟨ofStr ("that is all for today"), some (ofStr ("Got it.")), some INFO_W, true⟩,
         ⟨ofStr ("also add a garlic bread"), some (ofStr ("Done.")), some INFO_W, true⟩]).2
      = ([] : List OrderRow) ∧
    ((lookupSession (runTurns (answer_call [] SID PHONE 0) [] SID PHONE
        [⟨ofStr ("hello"), some (ofStr ("Hi! What can I do for you?")), none, true⟩,
         ⟨ofStr ("i would like a vodka pizza for pickup"),
          some (ofStr ("Great, anything else?")), none, true⟩,
         ⟨ofStr ("that is all for today"), some (ofStr ("Got it.")), some INFO_W, true⟩,
         ⟨ofStr ("also add a garlic bread"), some (ofStr ("Done.")), some INFO_W, true⟩]).1
        SID).map (fun s => (s.order_saved, s.order_id))) = some (false, none) :=
  ⟨fun _ _ _ _ => rfl, rfl, rfl⟩

end AiAgent
